import Mathlib

/-!
Verification of the pytetris game-logic core (tetris-single.py / tetris-tk.py,
with the tetris-wide.py variant where noted) against its natural-language
specification.  The Python classes `Shape`, `TetrisBoard` and `TetrisGame`
are shallowly embedded: pure methods become Lean functions, mutating methods
become functions from state to state, and methods that can raise a Python
exception (IndexError from list indexing, ValueError from `max` on an empty
sequence) return `Option`.
-/

set_option maxRecDepth 10000

/-- The `Tetrominoes` IntEnum: the 7 one-sided tetromino kinds plus the empty
sentinel `NoShape`. -/
inductive Tetrominoes where
  | NoShape
  | IShape
  | JShape
  | LShape
  | OShape
  | SShape
  | TShape
  | ZShape
  deriving DecidableEq, Repr

open Tetrominoes

/-- Table `Shape.shapeCoords` from tetris-single.py / tetris-tk.py: the canonical
4 cell offsets for each kind (x axis along the bottom edge, min y = 0). -/
def shapeCoords : Tetrominoes → List (Int × Int)
  | NoShape => [(0, 0), (0, 0), (0, 0), (0, 0)]
  | IShape  => [(0, 3), (0, 2), (0, 1), (0, 0)]
  | JShape  => [(-1, 0), (0, 0), (0, 1), (0, 2)]
  | LShape  => [(1, 0), (0, 0), (0, 1), (0, 2)]
  | OShape  => [(0, 1), (1, 1), (0, 0), (1, 0)]
  | SShape  => [(-1, 0), (0, 0), (0, 1), (1, 1)]
  | TShape  => [(-1, 0), (0, 0), (1, 0), (0, 1)]
  | ZShape  => [(-1, 1), (0, 1), (0, 0), (1, 0)]

/-- The Python `Shape` object: a kind together with its own (mutable in the
source, hence a plain field here) list of 4 cell offsets. -/
structure Shape where
  shape : Tetrominoes
  coords : List (Int × Int)
  deriving DecidableEq, Repr

/-- Constructor `Shape.__init__`: construct a shape of a given kind with a fresh copy of
the canonical offsets. -/
def Shape.ofKind (k : Tetrominoes) : Shape :=
  { shape := k, coords := shapeCoords k }

/-- The `Shape.shape` property setter: reset the piece to another kind,
refreshing the offsets from the canonical table. -/
def Shape.setShape (_s : Shape) (k : Tetrominoes) : Shape :=
  { shape := k, coords := shapeCoords k }

/-- Method `Shape._transform`: a new shape of the same kind with every offset
mapped through the given function. -/
def Shape.transform (s : Shape) (f : Int × Int → Int × Int) : Shape :=
  { shape := s.shape, coords := s.coords.map f }

/-- Method `Shape.rotate_cw`: rotate 90 degrees clockwise about the origin,
mapping (x, y) to (y, -x); the O shape is returned unchanged. -/
def Shape.rotate_cw (s : Shape) : Shape :=
  if s.shape = OShape then s
  else s.transform (fun c => (c.2, -c.1))

/-- Method `Shape.rotate_ccw`: rotate 90 degrees counterclockwise about the origin,
mapping (x, y) to (-y, x); the O shape is returned unchanged. -/
def Shape.rotate_ccw (s : Shape) : Shape :=
  if s.shape = OShape then s
  else s.transform (fun c => (-c.2, c.1))

/-- Python list indexing: a negative index counts from the end; an index
outside [-len, len) raises IndexError, modelled as `none`. -/
def pyIndex (n : Nat) (i : Int) : Option Nat :=
  let j : Int := if i < 0 then i + n else i
  if 0 ≤ j ∧ j < (n : Int) then some j.toNat else none

/-- Python `l[i]` read. -/
def pyGet {α : Type} (l : List α) (i : Int) : Option α :=
  (pyIndex l.length i).bind (fun j => l.get? j)

/-- Python `l[i] = v` write. -/
def pySet {α : Type} (l : List α) (i : Int) (v : α) : Option (List α) :=
  (pyIndex l.length i).map (fun j => l.set j v)

/-- The Python `TetrisBoard`: W×H grid of tetromino kinds in a flat
row-major list (`self.tiles`), with `nTilesH` = width W and `nTilesV` =
height H. -/
structure TetrisBoard where
  nTilesH : Nat
  nTilesV : Nat
  tiles : List Tetrominoes
  deriving DecidableEq, Repr

/-- Method `TetrisBoard.__getitem__`: `board[x, y]` reads `tiles[y*W + x]` with
Python list semantics. -/
def TetrisBoard.getItem (b : TetrisBoard) (x y : Int) : Option Tetrominoes :=
  pyGet b.tiles (y * b.nTilesH + x)

/-- Method `TetrisBoard.__setitem__`: `board[x, y] = v` writes `tiles[y*W + x]`
with Python list semantics. -/
def TetrisBoard.setItem (b : TetrisBoard) (x y : Int) (v : Tetrominoes) :
    Option TetrisBoard :=
  (pySet b.tiles (y * b.nTilesH + x) v).map (fun t => { b with tiles := t })

/-- Method `TetrisBoard.clear`: fill the board with `NoShape`. -/
def TetrisBoard.clear (b : TetrisBoard) : TetrisBoard :=
  { b with tiles := List.replicate (b.nTilesV * b.nTilesH) NoShape }

/-- Constructor `TetrisBoard.__init__`: a W×H board, cleared. -/
def TetrisBoard.make (width height : Nat) : TetrisBoard :=
  TetrisBoard.clear { nTilesH := width, nTilesV := height, tiles := [] }

/-- Total in-range cell read at Nat coordinates; used where the source
indexes with loop variables drawn from `range(W)`/`range(H)`, which are
always in range on a well-formed board. -/
def TetrisBoard.tileAt (b : TetrisBoard) (x y : Nat) : Tetrominoes :=
  b.tiles.getD (y * b.nTilesH + x) NoShape

/-- Total in-range cell write at Nat coordinates (`List.set` is the
identity out of range, unreachable on a well-formed board). -/
def TetrisBoard.setTile (b : TetrisBoard) (x y : Nat) (v : Tetrominoes) :
    TetrisBoard :=
  { b with tiles := b.tiles.set (y * b.nTilesH + x) v }

/-- A board is well-formed when its flat tile list has exactly H*W
entries, as established by `TetrisBoard.__init__`. -/
def TetrisBoard.WF (b : TetrisBoard) : Prop :=
  b.tiles.length = b.nTilesV * b.nTilesH

instance (b : TetrisBoard) : Decidable b.WF := by
  unfold TetrisBoard.WF; infer_instance

/-- The short-circuiting `any(self[cx, cy] != NoShape for cx, cy in coords)`
of `check_pos`: reads stop at the first occupied cell; a Python IndexError
is `none`. -/
def anyOccupied (b : TetrisBoard) : List (Int × Int) → Option Bool
  | [] => some false
  | c :: rest =>
    match b.getItem c.1 c.2 with
    | none => none
    | some v => if v ≠ NoShape then some true else anyOccupied b rest

/-- Method `TetrisBoard.check_pos` from tetris-single.py / tetris-tk.py: validity
of placing `piece` with its pivot at (x, y).  Cells with absolute y ≥ H are
filtered out before every check; the placement fails if no cell remains,
if a remaining cell violates 0 ≤ x < W or y ≥ 0, or if a remaining cell is
occupied. -/
def TetrisBoard.check_pos (b : TetrisBoard) (piece : Shape) (x y : Int) :
    Option Bool :=
  let coords := (piece.coords.map (fun c => (c.1 + x, c.2 + y))).filter
    (fun c => c.2 < (b.nTilesV : Int))
  if coords.isEmpty then some false
  else if ¬ coords.all (fun c => 0 ≤ c.1 ∧ c.1 < (b.nTilesH : Int) ∧ 0 ≤ c.2) then
    some false
  else (anyOccupied b coords).map (fun occ => !occ)

/-- Loop `any(self[x, y] == NoShape for x in range(W))` of `removefull`: row `y` has at least one
empty cell. -/
def TetrisBoard.rowNotFull (b : TetrisBoard) (y : Nat) : Bool :=
  (List.range b.nTilesH).any (fun x => b.tileAt x y = NoShape)

/-- Inner loop `for i in range(W): self[i, j] = self[i, k]` of `removefull`:
copy row `k` into row `j`. -/
def TetrisBoard.copyRow (b : TetrisBoard) (j k : Nat) : TetrisBoard :=
  (List.range b.nTilesH).foldl (fun b' i => b'.setTile i j (b'.tileAt i k)) b

/-- Inner loop `for i in range(W): self[i, j] = NoShape` of `removefull`:
blank out row `j`. -/
def TetrisBoard.blankRow (b : TetrisBoard) (j : Nat) : TetrisBoard :=
  (List.range b.nTilesH).foldl (fun b' i => b'.setTile i j NoShape) b

/-- Python `max` over a list of Nat; `none` models the ValueError raised on
an empty sequence. -/
def pyMax : List Nat → Option Nat
  | [] => none
  | x :: xs => some (xs.foldl Nat.max x)

/-- Method `TetrisBoard.removefull`: drop the full rows, compacting the not-full
rows downward and blanking the rows above `toprow`; returns the updated
board and the number of rows removed.  `none` models the ValueError that
`max(i for i, _ in move)` raises when `move` is empty while full rows
exist. -/
def TetrisBoard.removefull (b : TetrisBoard) : Option (TetrisBoard × Nat) :=
  let notfull := (List.range b.nTilesV).filter (fun y => b.rowNotFull y)
  if b.nTilesV = notfull.length then some (b, 0)
  else
    let move := notfull.enum.filter (fun ij => ij.1 ≠ ij.2)
    let b1 := move.foldl (fun b' jk => b'.copyRow jk.1 jk.2) b
    match pyMax (move.map Prod.fst) with
    | none => none
    | some m =>
      let toprow := m + 1
      let b2 := (List.range b.nTilesV).foldl
        (fun b' j => if toprow ≤ j then b'.blankRow j else b') b1
      some (b2, b.nTilesV - notfull.length)

/-- The Python `TetrisGame` (tetris-tk.py variant, which extends the
tetris-single.py one with `score` and `level`): the board plus the falling
and queued pieces, the pivot position, and the game flags and counters. -/
structure TetrisGame where
  board : TetrisBoard
  this_piece : Shape
  next_piece : Shape
  cur_x : Int
  cur_y : Int
  neednewpiece : Bool
  paused : Bool
  started : Bool
  rows_completed : Nat
  score : Nat
  level : Nat
  deriving DecidableEq, Repr

/-- Constructor `TetrisGame.__init__`: fresh game over a cleared width×height board. -/
def TetrisGame.make (width height : Nat) : TetrisGame :=
  { board := TetrisBoard.make width height
    this_piece := Shape.ofKind NoShape
    next_piece := Shape.ofKind NoShape
    cur_x := 0
    cur_y := 0
    neednewpiece := false
    paused := false
    started := false
    rows_completed := 0
    score := 0
    level := 0 }

/-- Method `TetrisGame.try_pos`: if `check_pos` accepts the piece at (x, y), commit
it as the falling piece at that position and return true; otherwise leave
the state untouched and return false. -/
def TetrisGame.try_pos (g : TetrisGame) (piece : Shape) (x y : Int) :
    Option (TetrisGame × Bool) :=
  match g.board.check_pos piece x y with
  | none => none
  | some ok =>
    if ok then some ({ g with this_piece := piece, cur_x := x, cur_y := y }, true)
    else some (g, false)

/-- Method `TetrisGame.make_new_piece`: clear `neednewpiece` and try to place the
queued piece with its pivot at (W//2, H-1).  On success the queued piece
becomes the falling piece and `p` (the value `Shape.randomize()` returns in
the source) is queued; on failure the falling piece's kind becomes
`NoShape`, the game stops, and false is returned. -/
def TetrisGame.make_new_piece (g : TetrisGame) (p : Shape) :
    Option (TetrisGame × Bool) :=
  let g0 := { g with neednewpiece := false }
  match g0.try_pos g0.next_piece ((g0.board.nTilesH / 2 : Nat) : Int)
      ((g0.board.nTilesV : Int) - 1) with
  | none => none
  | some (g1, true) => some ({ g1 with next_piece := p }, true)
  | some (g1, false) =>
    some ({ g1 with this_piece := g1.this_piece.setShape NoShape,
                    started := false }, false)

/-- Method `TetrisGame.pause`: toggle the pause flag of a started game; on a game
that has not started, report paused without changing anything. -/
def TetrisGame.pauseToggle (g : TetrisGame) : TetrisGame × Bool :=
  if ¬ g.started then (g, true)
  else ({ g with paused := ¬ g.paused }, ¬ g.paused)

/-- Method `TetrisGame.start` (tetris-tk.py): fail if paused; otherwise flag the
game started, reset the counters, queue `p1` (the `Shape.randomize()`
draw), run `make_new_piece` with `p2` as its own random draw, then clear
the board and return true.  In the source the board is cleared only after
`make_new_piece` has checked the spawn position. -/
def TetrisGame.start (g : TetrisGame) (p1 p2 : Shape) :
    Option (TetrisGame × Bool) :=
  if g.paused then some (g, false)
  else
    let g0 := { g with started := true, neednewpiece := false,
                       rows_completed := 0, score := 0, level := 1,
                       next_piece := p1 }
    match g0.make_new_piece p2 with
    | none => none
    | some (g1, _) => some ({ g1 with board := g1.board.clear }, true)

/-- The write loop of `piece_dropped`: `for x, y in zip(xs, ys): self[x, y]
= shape`, where a Python IndexError is `none`. -/
def writeCells (b : TetrisBoard) (v : Tetrominoes) :
    List (Int × Int) → Option TetrisBoard
  | [] => some b
  | c :: rest =>
    match b.setItem c.1 c.2 v with
    | none => none
    | some b' => writeCells b' v rest

/-- The cell list `zip(xs, ys)` that `piece_dropped` writes: all four
shifted x coordinates zipped against only those shifted y coordinates that
lie below the top of the board. -/
def TetrisGame.dropWrites (g : TetrisGame) : List (Int × Int) :=
  let xs := g.this_piece.coords.map (fun c => g.cur_x + c.1)
  let ys := (g.this_piece.coords.map (fun c => g.cur_y + c.2)).filter
    (fun y => y < (g.board.nTilesV : Int))
  xs.zip ys

/-- Method `TetrisGame.piece_dropped`: merge the falling piece into the board at
the cells of `dropWrites`, flag that a new piece is needed, blank the
falling piece, then remove full rows and add their count to
`rows_completed`. -/
def TetrisGame.piece_dropped (g : TetrisGame) : Option TetrisGame :=
  match writeCells g.board g.this_piece.shape g.dropWrites with
  | none => none
  | some b =>
    let g1 := { g with board := b, neednewpiece := true,
                       this_piece := g.this_piece.setShape NoShape }
    match g1.board.removefull with
    | none => none
    | some (b', k) =>
      let g2 := { g1 with board := b' }
      some (if k ≠ 0 then { g2 with rows_completed := g2.rows_completed + k }
            else g2)

/-- Method `TetrisGame.one_row_down`: try to move the falling piece one row down;
when that fails, lock it with `piece_dropped` and report false. -/
def TetrisGame.one_row_down (g : TetrisGame) : Option (TetrisGame × Bool) :=
  match g.try_pos g.this_piece g.cur_x (g.cur_y - 1) with
  | none => none
  | some (g1, true) => some (g1, true)
  | some (g1, false) => (g1.piece_dropped).map (fun g2 => (g2, false))

/-- The Python `GameBoard` panel state of tetris-wide.py (the fields its
game logic touches; its board-level `removefull` is textually the same as
the one above, and its `NoShape` table row is the same as single/tk's). -/
structure GameBoard where
  board : TetrisBoard
  this_piece : Shape
  next_piece : Shape
  cur_x : Int
  cur_y : Int
  neednewpiece : Bool
  paused : Bool
  started : Bool
  score : Nat
  level : Nat
  rows_completed : Nat
  deriving DecidableEq, Repr

/-- Method `GameBoard.removefull` from tetris-wide.py: flag a new piece, blank the
falling piece, remove full rows on the board, then add the removed count to
`rows_completed` and its square to `score`. -/
def GameBoard.removefull (g : GameBoard) : Option GameBoard :=
  let g1 := { g with neednewpiece := true,
                     this_piece := g.this_piece.setShape NoShape }
  match g1.board.removefull with
  | none => none
  | some (b, k) =>
    let g2 := { g1 with board := b }
    some (if k ≠ 0 then
            { g2 with rows_completed := g2.rows_completed + k,
                      score := g2.score + k * k }
          else g2)

/-!  Specification-side predicates, written from the spec's words, to be
compared against the embedded source functions. -/

/-- The placement rule exactly as the spec's canonical §4.2 wording states
it: all 4 absolute cells satisfy 0 ≤ x < W and y ≥ 0 (cells with y ≥ H
included), no cell with y < H is occupied, and at least one cell has
y < H. -/
def specClaimedPlacement (b : TetrisBoard) (piece : Shape) (x y : Int) : Bool :=
  let cells := piece.coords.map (fun c => (c.1 + x, c.2 + y))
  cells.all (fun c => 0 ≤ c.1 ∧ c.1 < (b.nTilesH : Int) ∧ 0 ≤ c.2) &&
  cells.all (fun c => c.2 < (b.nTilesV : Int) →
    b.tileAt c.1.toNat c.2.toNat = NoShape) &&
  cells.any (fun c => c.2 < (b.nTilesV : Int))

/-- The amended placement rule the code actually implements: at least one
absolute cell lies below the top of the board, and every such cell is
within 0 ≤ x < W, has y ≥ 0, and is unoccupied; cells with y ≥ H are
ignored entirely, horizontal bound included. -/
def specValidPlacement (b : TetrisBoard) (piece : Shape) (x y : Int) : Bool :=
  let low := (piece.coords.map (fun c => (c.1 + x, c.2 + y))).filter
    (fun c => c.2 < (b.nTilesV : Int))
  !low.isEmpty &&
  low.all (fun c => 0 ≤ c.1 ∧ c.1 < (b.nTilesH : Int) ∧ 0 ≤ c.2 ∧
    b.tileAt c.1.toNat c.2.toNat = NoShape)

/-- The cells the spec says `lock` writes: exactly the absolute cells of
the piece whose y coordinate is below the top of the board. -/
def specLockCells (g : TetrisGame) : List (Int × Int) :=
  (g.this_piece.coords.map (fun c => (g.cur_x + c.1, g.cur_y + c.2))).filter
    (fun c => c.2 < (g.board.nTilesV : Int))

/-- The falling-piece safety invariant: whenever the game is started, no
new piece is pending, and a piece is falling, that piece sits at a
position the board's placement check accepts. -/
def PieceInv (g : TetrisGame) : Prop :=
  g.started = true → g.neednewpiece = false → g.this_piece.shape ≠ NoShape →
    g.board.check_pos g.this_piece g.cur_x g.cur_y = some true

/-- One engine operation of the tetris-single/tk game, with the random
draws of `Shape.randomize()` supplied as parameters; operations that can
raise only step to their non-raising results. -/
inductive EngineStep : TetrisGame → TetrisGame → Prop where
  | startStep (g : TetrisGame) (p1 p2 : Shape) (g' : TetrisGame) (r : Bool)
      (h : g.start p1 p2 = some (g', r)) : EngineStep g g'
  | newPieceStep (g : TetrisGame) (p : Shape) (g' : TetrisGame) (r : Bool)
      (h : g.make_new_piece p = some (g', r)) : EngineStep g g'
  | pauseStep (g : TetrisGame) : EngineStep g (g.pauseToggle).1
  | tryPosStep (g : TetrisGame) (piece : Shape) (x y : Int) (g' : TetrisGame)
      (r : Bool) (h : g.try_pos piece x y = some (g', r)) : EngineStep g g'
  | droppedStep (g g' : TetrisGame) (h : g.piece_dropped = some g') :
      EngineStep g g'
  | oneDownStep (g : TetrisGame) (g' : TetrisGame) (r : Bool)
      (h : g.one_row_down = some (g', r)) : EngineStep g g'

/-- A 10×18 board whose top row (row 17) is full and all other rows are
empty. -/
def fullTopBoard : TetrisBoard :=
  { nTilesH := 10, nTilesV := 18,
    tiles := List.replicate 170 NoShape ++ List.replicate 10 LShape }

/-- A game about to spawn an O piece onto a board whose spawn row is fully
occupied. -/
def spawnBlockedGame : TetrisGame :=
  { TetrisGame.make 10 18 with
      board := fullTopBoard
      next_piece := Shape.ofKind OShape
      started := true }

/-- A started game with a Z piece at (1, 17) on an empty board: a valid
position whose two upper cells poke above the board. -/
def zTopGame : TetrisGame :=
  { TetrisGame.make 10 18 with
      this_piece := Shape.ofKind ZShape
      cur_x := 1
      cur_y := 17
      started := true }

/-- A not-yet-started, not-paused game whose board still holds a full top
row from a previous game. -/
def dirtyStartGame : TetrisGame :=
  { TetrisGame.make 10 18 with board := fullTopBoard }

/-- A 10×18 board whose bottom row (row 0) is full and all other rows are
empty. -/
def row0FullBoard : TetrisBoard :=
  { nTilesH := 10, nTilesV := 18,
    tiles := List.replicate 10 LShape ++ List.replicate 170 NoShape }

/-- A tetris-wide game state about to run its lock-time `removefull` with
one full row on the board. -/
def wideDemo : GameBoard :=
  { board := row0FullBoard
    this_piece := Shape.ofKind OShape
    next_piece := Shape.ofKind IShape
    cur_x := 0
    cur_y := 0
    neednewpiece := false
    paused := false
    started := true
    score := 0
    level := 1
    rows_completed := 0 }

/-- A 10×18 board whose bottom row holds pieces in columns 0 through 7 and
is otherwise empty. -/
def almostRow0Board : TetrisBoard :=
  { nTilesH := 10, nTilesV := 18,
    tiles := List.replicate 8 LShape ++ List.replicate 172 NoShape }

/-- A tetris-tk game with an O piece at (8, 0) that will complete row 0
when locked. -/
def tkLockGame : TetrisGame :=
  { TetrisGame.make 10 18 with
      board := almostRow0Board
      this_piece := Shape.ofKind OShape
      cur_x := 8
      cur_y := 0
      started := true }

/-- The `try_move(piece, -1)` step of the GUI drivers: move the falling
piece one column left. -/
def moveLeft (r : TetrisGame × Bool) : Option (TetrisGame × Bool) :=
  r.1.try_pos r.1.this_piece (r.1.cur_x - 1) r.1.cur_y

/-- A concrete play: start a fresh 10×18 game with a Z piece spawned and
an I piece queued, then press Left five times, bringing the Z piece to
(0, 17). -/
def zLeftChain : Option (TetrisGame × Bool) :=
  ((TetrisGame.make 10 18).start (Shape.ofKind ZShape) (Shape.ofKind IShape)).bind
    moveLeft >>= moveLeft >>= moveLeft >>= moveLeft >>= moveLeft

/-- The same play followed by one soft-drop tick, which fails to move down
and locks the piece. -/
def zLeftLocked : Option TetrisGame :=
  zLeftChain.bind (fun r => (r.1.one_row_down).map Prod.fst)

/-- The cell-by-cell scan of tetris-wide's `try_pos` loop: each cell is
bound-checked and then read, stopping at the first violation; `none`
models an IndexError on a malformed board. -/
def wideScan (b : TetrisBoard) : List (Int × Int) → Option Bool
  | [] => some true
  | c :: rest =>
    if ¬ (0 ≤ c.1 ∧ c.1 < (b.nTilesH : Int) ∧ 0 ≤ c.2 ∧
        c.2 < (b.nTilesV : Int)) then some false
    else
      match b.getItem c.1 c.2 with
      | none => none
      | some v => if v ≠ NoShape then some false else wideScan b rest

/-- Method `TetrisBoard.check_pos` from tetris-wide.py: every cell must lie fully
within the board (no allowance above the top edge) and be unoccupied. -/
def TetrisBoard.check_pos_wide (b : TetrisBoard) (piece : Shape)
    (x y : Int) : Option Bool :=
  let coords := piece.coords.map (fun c => (c.1 + x, c.2 + y))
  if ¬ coords.all (fun c => 0 ≤ c.1 ∧ c.1 < (b.nTilesH : Int) ∧ 0 ≤ c.2 ∧
      c.2 < (b.nTilesV : Int)) then
    some false
  else (anyOccupied b coords).map (fun occ => !occ)

/-- Method `GameBoard.try_pos` from tetris-wide.py: scan the shifted cells (the
source zips two maps over the same coords list) and commit the piece and
position when the scan passes. -/
def GameBoard.try_pos (g : GameBoard) (piece : Shape) (ref_x ref_y : Int) :
    Option (GameBoard × Bool) :=
  match wideScan g.board
      (piece.coords.map (fun c => (ref_x + c.1, ref_y + c.2))) with
  | none => none
  | some false => some (g, false)
  | some true =>
    some ({ g with this_piece := piece, cur_x := ref_x, cur_y := ref_y },
      true)

/-- Table `Shape.shapeCoords` from tetris-wide.py: the canonical 4 cell
offsets for each kind in that variant (x axis along the top edge, max
y = 0). -/
def wideShapeCoords : Tetrominoes → List (Int × Int)
  | NoShape => [(0, 0), (0, 0), (0, 0), (0, 0)]
  | IShape  => [(0, -3), (0, -2), (0, -1), (0, 0)]
  | JShape  => [(-1, -2), (0, -2), (0, -1), (0, 0)]
  | LShape  => [(1, -2), (0, -2), (0, -1), (0, 0)]
  | OShape  => [(0, -1), (1, -1), (0, 0), (1, 0)]
  | SShape  => [(0, -2), (0, -1), (-1, -1), (-1, 0)]
  | TShape  => [(0, -1), (1, 0), (0, 0), (-1, 0)]
  | ZShape  => [(0, -2), (0, -1), (1, -1), (1, 0)]

/-- Constructor `Shape.__init__` of the tetris-wide variant: a fresh copy
of that variant's canonical offsets. -/
def Shape.ofKindWide (k : Tetrominoes) : Shape :=
  { shape := k, coords := wideShapeCoords k }

/-- Method `GameBoard.make_new_piece` from tetris-wide.py: promote the
queued piece to the falling piece, unconditionally queue `p` (the value
`Shape.randomize()` returns in the source), clear `neednewpiece`, set the
pivot to (W//2, H-1), and only then run the placement check; on failure
blank the falling piece's kind and stop the game.  The method is annotated
`-> None` and returns no boolean; its `NoShape` setter row coincides with
the single/tk one, so `Shape.setShape` is shared. -/
def GameBoard.make_new_piece (g : GameBoard) (p : Shape) : Option GameBoard :=
  let g1 := { g with
                this_piece := g.next_piece
                next_piece := p
                neednewpiece := false
                cur_x := ((g.board.nTilesH / 2 : Nat) : Int)
                cur_y := (g.board.nTilesV : Int) - 1 }
  match g1.board.check_pos_wide g1.this_piece g1.cur_x g1.cur_y with
  | none => none
  | some true => some g1
  | some false =>
    some { g1 with this_piece := g1.this_piece.setShape NoShape,
                   started := false }

/-- A tetris-wide game about to spawn an I piece onto a board whose spawn
row is fully occupied, with an I piece queued. -/
def wideBlockedGame : GameBoard :=
  { board := fullTopBoard
    this_piece := Shape.ofKindWide NoShape
    next_piece := Shape.ofKindWide IShape
    cur_x := 0
    cur_y := 0
    neednewpiece := false
    paused := false
    started := true
    score := 0
    level := 1
    rows_completed := 0 }

/-!  Claim theorems. -/

/-- C8: `rotate_cw` maps each offset (x,y) to (y,-x) and `rotate_ccw` maps
(x,y) to (-y,x), both pure and kind-preserving, except that an O shape is
returned with its offsets untouched; consequently a clockwise rotation
followed by a counterclockwise one (and vice versa) restores the original
shape, as do 4 consecutive clockwise rotations. -/
theorem rotate_cw_ccw_spec (s : Shape) :
    (s.rotate_cw).coords =
      (if s.shape = OShape then s.coords
       else s.coords.map (fun c => (c.2, -c.1))) ∧
    (s.rotate_ccw).coords =
      (if s.shape = OShape then s.coords
       else s.coords.map (fun c => (-c.2, c.1))) ∧
    (s.rotate_cw).shape = s.shape ∧
    (s.rotate_ccw).shape = s.shape ∧
    s.rotate_cw.rotate_ccw = s ∧
    s.rotate_ccw.rotate_cw = s ∧
    s.rotate_cw.rotate_cw.rotate_cw.rotate_cw = s := by
  obtain ⟨k, cs⟩ := s
  by_cases h : k = OShape <;>
    simp [Shape.rotate_cw, Shape.rotate_ccw, Shape.transform, h,
      List.map_map, Function.comp_def, neg_neg, Prod.mk.eta, List.map_id]

theorem flat_index_lt {x y w v : Nat} (hx : x < w) (hy : y < v) :
    y * w + x < v * w := by
  calc y * w + x < y * w + w := by omega
    _ = (y + 1) * w := by ring
    _ ≤ v * w := Nat.mul_le_mul_right w hy

/-- On a well-formed board an in-range `__getitem__` read returns the cell
content. -/
theorem TetrisBoard.getItem_eq (b : TetrisBoard) (hwf : b.WF) (x y : Nat)
    (hx : x < b.nTilesH) (hy : y < b.nTilesV) :
    b.getItem (x : Int) (y : Int) = some (b.tileAt x y) := by
  have hk : y * b.nTilesH + x < b.tiles.length := by
    rw [hwf]; exact flat_index_lt hx hy
  have h1 : ((y : Int) * b.nTilesH + x) = ((y * b.nTilesH + x : Nat) : Int) := by
    push_cast; ring
  simp only [TetrisBoard.getItem, pyGet, pyIndex, TetrisBoard.tileAt]
  rw [h1]
  have c1 : ¬ ((((y * b.nTilesH + x : Nat) : Int)) < 0) := by omega
  have c2 : (0 : Int) ≤ ((y * b.nTilesH + x : Nat) : Int) := by omega
  have c3 : (((y * b.nTilesH + x : Nat) : Int)) < (b.tiles.length : Int) := by
    exact_mod_cast hk
  rw [if_neg c1, if_pos (And.intro c2 c3)]
  rw [show (((y * b.nTilesH + x : Nat) : Int)).toNat = y * b.nTilesH + x from
    Int.toNat_natCast _]
  rw [Option.some_bind, List.get?_eq_getElem?, List.getElem?_eq_getElem hk]
  rw [List.getD_eq_getElem?_getD, List.getElem?_eq_getElem hk]
  rfl

/-- On a well-formed board, the short-circuit occupancy scan over in-range
cells never raises and agrees with a pointwise scan. -/
theorem anyOccupied_eq (b : TetrisBoard) (hwf : b.WF) (l : List (Int × Int))
    (hl : ∀ c ∈ l, 0 ≤ c.1 ∧ c.1 < (b.nTilesH : Int) ∧ 0 ≤ c.2 ∧
      c.2 < (b.nTilesV : Int)) :
    anyOccupied b l =
      some (l.any (fun c => b.tileAt c.1.toNat c.2.toNat ≠ NoShape)) := by
  induction l with
  | nil => simp [anyOccupied]
  | cons c rest ih =>
    obtain ⟨h1, h2, h3, h4⟩ := hl c (List.mem_cons_self c rest)
    have hx1 : ((c.1.toNat : Nat) : Int) = c.1 := Int.toNat_of_nonneg h1
    have hy1 : ((c.2.toNat : Nat) : Int) = c.2 := Int.toNat_of_nonneg h3
    have hxb : c.1.toNat < b.nTilesH := by omega
    have hyb : c.2.toNat < b.nTilesV := by omega
    have hg : b.getItem c.1 c.2 = some (b.tileAt c.1.toNat c.2.toNat) := by
      rw [← hx1, ← hy1]; exact b.getItem_eq hwf _ _ hxb hyb
    have ih' := ih (fun d hd => hl d (List.mem_cons_of_mem c hd))
    by_cases hocc : b.tileAt c.1.toNat c.2.toNat = NoShape <;>
      simp [anyOccupied, hg, hocc, ih']


/-- Shared characterization: on a well-formed board `check_pos` accepts
exactly when `specValidPlacement` holds. -/
theorem check_pos_valid_iff_aux (b : TetrisBoard) (piece : Shape)
    (x y : Int) (hwf : b.WF) :
    b.check_pos piece x y = some true ↔
      specValidPlacement b piece x y = true := by
  simp only [TetrisBoard.check_pos, specValidPlacement]
  set low := (piece.coords.map (fun c => (c.1 + x, c.2 + y))).filter
    (fun c => c.2 < (b.nTilesV : Int)) with hlowdef
  by_cases he : low.isEmpty = true
  · simp [he]
  · have hempty : low.isEmpty = false := Bool.eq_false_iff.mpr he
    rw [if_neg he]
    by_cases hb : low.all
        (fun c => decide (0 ≤ c.1 ∧ c.1 < (b.nTilesH : Int) ∧ 0 ≤ c.2)) = true
    · rw [if_neg (not_not_intro hb)]
      have hl : ∀ c ∈ low, 0 ≤ c.1 ∧ c.1 < (b.nTilesH : Int) ∧ 0 ≤ c.2 ∧
          c.2 < (b.nTilesV : Int) := by
        intro c hc
        have hbnd := List.all_eq_true.mp hb c hc
        have hfil := List.of_mem_filter hc
        simp only [decide_eq_true_eq] at hbnd hfil
        exact ⟨hbnd.1, hbnd.2.1, hbnd.2.2, hfil⟩
      rw [anyOccupied_eq b hwf low hl]
      simp only [Option.map_some', Option.some.injEq, Bool.not_eq_true',
        List.any_eq_false, List.all_eq_true, decide_eq_true_eq, ne_eq,
        not_not, hempty, Bool.not_false, Bool.true_and]
      constructor
      · intro hno c hc
        exact ⟨(hl c hc).1, (hl c hc).2.1, (hl c hc).2.2.1, hno c hc⟩
      · intro hall c hc
        exact (hall c hc).2.2.2
    · rw [if_pos hb]
      constructor
      · intro hfalse
        exact absurd hfalse (by simp)
      · intro hall
        exfalso
        apply hb
        rw [List.all_eq_true]
        rw [hempty] at hall
        simp only [Bool.not_false, Bool.true_and, List.all_eq_true,
          decide_eq_true_eq] at hall
        intro c hc
        have h := hall c hc
        simp only [decide_eq_true_eq]
        exact ⟨h.1, h.2.1, h.2.2.1⟩

/-- C1 (amended): on a well-formed board, `check_pos` accepts exactly when
at least one absolute cell lies below the top of the board and every such
cell is horizontally in range, at or above the floor, and unoccupied;
cells with y ≥ H are ignored entirely, horizontal bound included. -/
theorem check_pos_iff_validPlacement (b : TetrisBoard) (piece : Shape)
    (x y : Int) (hwf : b.WF) :
    b.check_pos piece x y = some true ↔
      specValidPlacement b piece x y = true :=
  check_pos_valid_iff_aux b piece x y hwf

/-- Witness for C1's amended theorem: an I piece at (5, 0) on an empty
10×18 board. -/
theorem check_pos_iff_validPlacement_witness :
    (TetrisBoard.make 10 18).WF ∧
      ((TetrisBoard.make 10 18).check_pos (Shape.ofKind IShape) 5 0 =
          some true ↔
        specValidPlacement (TetrisBoard.make 10 18) (Shape.ofKind IShape)
          5 0 = true) :=
  ⟨by decide, check_pos_iff_validPlacement _ _ _ _ (by decide)⟩

/-- Counterexample to C1 as stated: a Z piece at (0, H-1) on an empty
10×18 board has its cell (-1, 18) above the board and left of the wall;
the claim demands rejection for the violated horizontal bound, but
`check_pos` filters that cell out before the bound check and accepts. -/
theorem check_pos_horizontal_bound_cex :
    (TetrisBoard.make 10 18).check_pos (Shape.ofKind ZShape) 0 17 =
        some true ∧
      specClaimedPlacement (TetrisBoard.make 10 18) (Shape.ofKind ZShape)
        0 17 = false := by
  constructor <;> decide

/-- An accepted placement has at least one cell below the top of the board
and all such cells within the walls and above the floor. -/
theorem check_pos_some_true_elim (b : TetrisBoard) (piece : Shape)
    (x y : Int) (h : b.check_pos piece x y = some true) :
    ((piece.coords.map (fun c => (c.1 + x, c.2 + y))).filter
        (fun c => c.2 < (b.nTilesV : Int))).isEmpty = false ∧
    ((piece.coords.map (fun c => (c.1 + x, c.2 + y))).filter
        (fun c => c.2 < (b.nTilesV : Int))).all
      (fun c => decide (0 ≤ c.1 ∧ c.1 < (b.nTilesH : Int) ∧ 0 ≤ c.2)) = true := by
  simp only [TetrisBoard.check_pos] at h
  set low := (piece.coords.map (fun c => (c.1 + x, c.2 + y))).filter
    (fun c => c.2 < (b.nTilesV : Int)) with hlowdef
  by_cases he : low.isEmpty = true
  · rw [if_pos he] at h; exact absurd h (by simp)
  · rw [if_neg he] at h
    by_cases hb : low.all
        (fun c => decide (0 ≤ c.1 ∧ c.1 < (b.nTilesH : Int) ∧ 0 ≤ c.2)) = true
    · exact ⟨Bool.eq_false_iff.mpr he, hb⟩
    · rw [if_pos hb] at h; exact absurd h (by simp)

/-- Every cell of a cleared board is empty. -/
theorem tileAt_clear (b : TetrisBoard) (x y : Nat) :
    (b.clear).tileAt x y = NoShape := by
  simp only [TetrisBoard.clear, TetrisBoard.tileAt]
  by_cases h : y * b.nTilesH + x < b.nTilesV * b.nTilesH <;>
    simp [List.getD_eq_getElem?_getD, List.getElem?_replicate, h]

/-- A cleared board is well-formed. -/
theorem WF_clear (b : TetrisBoard) : (b.clear).WF := by
  simp [TetrisBoard.clear, TetrisBoard.WF]

/-- A placement accepted on a board is accepted on the cleared board:
clearing can only remove collisions. -/
theorem check_pos_clear (b : TetrisBoard) (piece : Shape) (x y : Int)
    (h : b.check_pos piece x y = some true) :
    (b.clear).check_pos piece x y = some true := by
  obtain ⟨he, hb⟩ := check_pos_some_true_elim b piece x y h
  rw [check_pos_valid_iff_aux _ _ _ _ (WF_clear b)]
  simp only [specValidPlacement, TetrisBoard.clear]
  rw [List.all_eq_true] at hb
  simp only [Bool.and_eq_true, Bool.not_eq_true', List.all_eq_true]
  refine ⟨he, ?_⟩
  intro c hc
  have hbc := hb c hc
  simp only [decide_eq_true_eq] at hbc ⊢
  exact ⟨hbc.1, hbc.2.1, hbc.2.2, tileAt_clear b c.1.toNat c.2.toNat⟩

/-- On a well-formed board `check_pos` never raises. -/
theorem check_pos_isSome (b : TetrisBoard) (piece : Shape) (x y : Int)
    (hwf : b.WF) : (b.check_pos piece x y).isSome = true := by
  simp only [TetrisBoard.check_pos]
  set low := (piece.coords.map (fun c => (c.1 + x, c.2 + y))).filter
    (fun c => c.2 < (b.nTilesV : Int)) with hlowdef
  by_cases he : low.isEmpty = true
  · rw [if_pos he]; rfl
  · rw [if_neg he]
    by_cases hb : low.all
        (fun c => decide (0 ≤ c.1 ∧ c.1 < (b.nTilesH : Int) ∧ 0 ≤ c.2)) = true
    · rw [if_neg (not_not_intro hb)]
      have hl : ∀ c ∈ low, 0 ≤ c.1 ∧ c.1 < (b.nTilesH : Int) ∧ 0 ≤ c.2 ∧
          c.2 < (b.nTilesV : Int) := by
        intro c hc
        have hbnd := List.all_eq_true.mp hb c hc
        have hfil := List.of_mem_filter hc
        simp only [decide_eq_true_eq] at hbnd hfil
        exact ⟨hbnd.1, hbnd.2.1, hbnd.2.2, hfil⟩
      rw [anyOccupied_eq b hwf low hl]
      rfl
    · rw [if_pos hb]; rfl

theorem shapeCoords_dy_nonneg (k : Tetrominoes) : ∀ d ∈ shapeCoords k, 0 ≤ d.2 := by
  cases k <;> decide

/-- When the spawn check succeeds, `make_new_piece` promotes the queued
piece and queues the new draw. -/
theorem make_new_piece_check_true (g : TetrisGame) (p : Shape)
    (h : g.board.check_pos g.next_piece ((g.board.nTilesH / 2 : Nat) : Int)
      ((g.board.nTilesV : Int) - 1) = some true) :
    g.make_new_piece p = some
      ({ g with
          neednewpiece := false
          this_piece := g.next_piece
          cur_x := ((g.board.nTilesH / 2 : Nat) : Int)
          cur_y := (g.board.nTilesV : Int) - 1
          next_piece := p }, true) := by
  simp only [TetrisGame.make_new_piece, TetrisGame.try_pos, h]
  simp

/-- When the spawn check fails, `make_new_piece` blanks the falling piece,
stops the game and returns false. -/
theorem make_new_piece_check_false (g : TetrisGame) (p : Shape)
    (h : g.board.check_pos g.next_piece ((g.board.nTilesH / 2 : Nat) : Int)
      ((g.board.nTilesV : Int) - 1) = some false) :
    g.make_new_piece p = some
      ({ g with
          neednewpiece := false
          this_piece := g.this_piece.setShape NoShape
          started := false }, false) := by
  simp only [TetrisGame.make_new_piece, TetrisGame.try_pos, h]
  simp

/-- On a well-formed board the wide scan agrees with a pointwise check of
bounds and emptiness. -/
theorem wideScan_eq (b : TetrisBoard) (hwf : b.WF) (l : List (Int × Int)) :
    wideScan b l = some (l.all (fun c =>
      decide (0 ≤ c.1 ∧ c.1 < (b.nTilesH : Int) ∧ 0 ≤ c.2 ∧
        c.2 < (b.nTilesV : Int)) &&
      decide (b.tileAt c.1.toNat c.2.toNat = NoShape))) := by
  induction l with
  | nil => simp [wideScan]
  | cons c rest ih =>
    by_cases hb : 0 ≤ c.1 ∧ c.1 < (b.nTilesH : Int) ∧ 0 ≤ c.2 ∧
        c.2 < (b.nTilesV : Int)
    · have hx1 : ((c.1.toNat : Nat) : Int) = c.1 := Int.toNat_of_nonneg hb.1
      have hy1 : ((c.2.toNat : Nat) : Int) = c.2 :=
        Int.toNat_of_nonneg hb.2.2.1
      have hg : b.getItem c.1 c.2 = some (b.tileAt c.1.toNat c.2.toNat) := by
        rw [← hx1, ← hy1]
        exact b.getItem_eq hwf _ _ (by omega) (by omega)
      by_cases hocc : b.tileAt c.1.toNat c.2.toNat = NoShape <;>
        simp [wideScan, hb, hg, hocc, ih]
    · simp [wideScan, hb]

/-- On a well-formed board the wide `check_pos` agrees with the same
pointwise check. -/
theorem check_pos_wide_eq (b : TetrisBoard) (hwf : b.WF) (piece : Shape)
    (x y : Int) :
    b.check_pos_wide piece x y =
      some ((piece.coords.map (fun c => (c.1 + x, c.2 + y))).all (fun c =>
        decide (0 ≤ c.1 ∧ c.1 < (b.nTilesH : Int) ∧ 0 ≤ c.2 ∧
          c.2 < (b.nTilesV : Int)) &&
      decide (b.tileAt c.1.toNat c.2.toNat = NoShape))) := by
  simp only [TetrisBoard.check_pos_wide]
  set cells := piece.coords.map (fun c => (c.1 + x, c.2 + y)) with hcells
  by_cases hb : cells.all (fun c => decide (0 ≤ c.1 ∧
      c.1 < (b.nTilesH : Int) ∧ 0 ≤ c.2 ∧ c.2 < (b.nTilesV : Int))) = true
  · rw [if_neg (not_not_intro hb)]
    have hl : ∀ c ∈ cells, 0 ≤ c.1 ∧ c.1 < (b.nTilesH : Int) ∧ 0 ≤ c.2 ∧
        c.2 < (b.nTilesV : Int) := by
      intro c hc
      have := List.all_eq_true.mp hb c hc
      simpa using this
    rw [anyOccupied_eq b hwf cells hl]
    simp only [Option.map_some', Option.some.injEq]
    rw [Bool.eq_iff_iff]
    simp only [Bool.not_eq_true', List.any_eq_false, List.all_eq_true,
      Bool.and_eq_true, decide_eq_true_eq, ne_eq, decide_eq_false_iff_not,
      not_not]
    constructor
    · intro hno c hc
      exact ⟨hl c hc, hno c hc⟩
    · intro hall c hc
      exact (hall c hc).2
  · rw [if_pos hb]
    congr 1
    symm
    have hb' : cells.all (fun c => decide (0 ≤ c.1 ∧
        c.1 < (b.nTilesH : Int) ∧ 0 ≤ c.2 ∧
        c.2 < (b.nTilesV : Int))) = false := Bool.eq_false_iff.mpr hb
    rw [List.all_eq_false] at hb' ⊢
    obtain ⟨c, hc, hq⟩ := hb'
    refine ⟨c, hc, ?_⟩
    have hq' : decide (0 ≤ c.1 ∧ c.1 < (b.nTilesH : Int) ∧ 0 ≤ c.2 ∧
        c.2 < (b.nTilesV : Int)) = false := Bool.eq_false_iff.mpr hq
    simp [hq']

theorem wideShapeCoords_has_dy0 (k : Tetrominoes) :
    ∃ d ∈ wideShapeCoords k, d.2 = 0 := by
  cases k <;> decide

/-- When its placement check succeeds, the wide `make_new_piece` keeps the
promoted piece at the spawn position. -/
theorem wide_make_new_piece_check_true (wg : GameBoard) (p : Shape)
    (h : wg.board.check_pos_wide wg.next_piece
      ((wg.board.nTilesH / 2 : Nat) : Int)
      ((wg.board.nTilesV : Int) - 1) = some true) :
    wg.make_new_piece p = some
      { wg with
          this_piece := wg.next_piece
          next_piece := p
          neednewpiece := false
          cur_x := ((wg.board.nTilesH / 2 : Nat) : Int)
          cur_y := (wg.board.nTilesV : Int) - 1 } := by
  simp only [GameBoard.make_new_piece, h]

/-- When its placement check fails, the wide `make_new_piece` still keeps
the fresh queue draw and the spawn pivot, blanks the falling piece's kind,
and stops the game. -/
theorem wide_make_new_piece_check_false (wg : GameBoard) (p : Shape)
    (h : wg.board.check_pos_wide wg.next_piece
      ((wg.board.nTilesH / 2 : Nat) : Int)
      ((wg.board.nTilesV : Int) - 1) = some false) :
    wg.make_new_piece p = some
      { wg with
          this_piece := wg.next_piece.setShape NoShape
          next_piece := p
          neednewpiece := false
          cur_x := ((wg.board.nTilesH / 2 : Nat) : Int)
          cur_y := (wg.board.nTilesV : Int) - 1
          started := false } := by
  simp only [GameBoard.make_new_piece, h]

/-- C5 (amended): in tetris-single/tk, `make_new_piece` places the queued
piece with its pivot at (W//2, H-1); if the check succeeds the queued
piece becomes the falling piece and the supplied random draw is queued,
returning true, and if it fails the falling piece's kind becomes NoShape,
the started flag drops, and false is returned.  In tetris-wide,
`make_new_piece` returns nothing: it promotes the queued piece,
unconditionally queues the new draw, sets the pivot to (W//2, H-1), and
only on a failed check blanks the falling piece's kind and stops the
game.  In both variants a board whose spawn row H-1 is fully occupied
always ends the game, because every canonical piece keeps at least one
cell on its pivot row. -/
theorem make_new_piece_spec :
    (∀ (g : TetrisGame) (p : Shape), g.board.WF → 1 ≤ g.board.nTilesV →
      (g.board.check_pos g.next_piece ((g.board.nTilesH / 2 : Nat) : Int)
          ((g.board.nTilesV : Int) - 1) = some true →
        g.make_new_piece p = some
          ({ g with
              neednewpiece := false
              this_piece := g.next_piece
              cur_x := ((g.board.nTilesH / 2 : Nat) : Int)
              cur_y := (g.board.nTilesV : Int) - 1
              next_piece := p }, true)) ∧
      (g.board.check_pos g.next_piece ((g.board.nTilesH / 2 : Nat) : Int)
          ((g.board.nTilesV : Int) - 1) = some false →
        g.make_new_piece p = some
          ({ g with
              neednewpiece := false
              this_piece := g.this_piece.setShape NoShape
              started := false }, false)) ∧
      ((∃ k, g.next_piece = Shape.ofKind k) →
        (∀ xx : Nat, xx < g.board.nTilesH →
          g.board.tileAt xx (g.board.nTilesV - 1) ≠ NoShape) →
        g.make_new_piece p = some
          ({ g with
              neednewpiece := false
              this_piece := g.this_piece.setShape NoShape
              started := false }, false))) ∧
    (∀ (wg : GameBoard) (p : Shape),
      (wg.board.check_pos_wide wg.next_piece
          ((wg.board.nTilesH / 2 : Nat) : Int)
          ((wg.board.nTilesV : Int) - 1) = some true →
        wg.make_new_piece p = some
          { wg with
              this_piece := wg.next_piece
              next_piece := p
              neednewpiece := false
              cur_x := ((wg.board.nTilesH / 2 : Nat) : Int)
              cur_y := (wg.board.nTilesV : Int) - 1 }) ∧
      (wg.board.check_pos_wide wg.next_piece
          ((wg.board.nTilesH / 2 : Nat) : Int)
          ((wg.board.nTilesV : Int) - 1) = some false →
        wg.make_new_piece p = some
          { wg with
              this_piece := wg.next_piece.setShape NoShape
              next_piece := p
              neednewpiece := false
              cur_x := ((wg.board.nTilesH / 2 : Nat) : Int)
              cur_y := (wg.board.nTilesV : Int) - 1
              started := false }) ∧
      (wg.board.WF → 1 ≤ wg.board.nTilesV →
        (∃ k, wg.next_piece = Shape.ofKindWide k) →
        (∀ xx : Nat, xx < wg.board.nTilesH →
          wg.board.tileAt xx (wg.board.nTilesV - 1) ≠ NoShape) →
        wg.make_new_piece p = some
          { wg with
              this_piece := wg.next_piece.setShape NoShape
              next_piece := p
              neednewpiece := false
              cur_x := ((wg.board.nTilesH / 2 : Nat) : Int)
              cur_y := (wg.board.nTilesV : Int) - 1
              started := false })) := by
  constructor
  · intro g p hwf hV
    refine ⟨make_new_piece_check_true g p, make_new_piece_check_false g p, ?_⟩
    rintro ⟨k, hnp⟩ hfull
    apply make_new_piece_check_false g p
    have hs := check_pos_isSome g.board g.next_piece
      ((g.board.nTilesH / 2 : Nat) : Int) ((g.board.nTilesV : Int) - 1) hwf
    obtain ⟨r, hr⟩ := Option.isSome_iff_exists.mp hs
    cases r
    · exact hr
    · exfalso
      have hvp := (check_pos_valid_iff_aux g.board g.next_piece
        ((g.board.nTilesH / 2 : Nat) : Int) ((g.board.nTilesV : Int) - 1)
        hwf).mp hr
      simp only [specValidPlacement, Bool.and_eq_true, Bool.not_eq_true',
        List.all_eq_true] at hvp
      obtain ⟨hne, hall⟩ := hvp
      obtain ⟨c, hc⟩ := List.exists_mem_of_ne_nil _
        (List.isEmpty_eq_false.mp hne)
      have hcl := List.of_mem_filter hc
      have hcm := List.mem_of_mem_filter hc
      obtain ⟨d, hd, hdc⟩ := List.mem_map.mp hcm
      have hdy : 0 ≤ d.2 := by
        apply shapeCoords_dy_nonneg k
        rw [hnp] at hd
        exact hd
      have hbnd := hall c hc
      simp only [decide_eq_true_eq] at hbnd hcl
      obtain ⟨hx0, hxW, hy0, hocc⟩ := hbnd
      have hc2 : c.2 = (g.board.nTilesV : Int) - 1 := by
        have : c.2 = d.2 + ((g.board.nTilesV : Int) - 1) := by
          rw [← hdc]
        omega
      have hxr : c.1.toNat < g.board.nTilesH := by omega
      have hyr : c.2.toNat = g.board.nTilesV - 1 := by omega
      have := hfull c.1.toNat hxr
      rw [← hyr] at this
      exact this hocc
  · intro wg p
    refine ⟨wide_make_new_piece_check_true wg p,
      wide_make_new_piece_check_false wg p, ?_⟩
    rintro hwf hV ⟨k, hnp⟩ hfull
    apply wide_make_new_piece_check_false wg p
    rw [check_pos_wide_eq wg.board hwf wg.next_piece
      ((wg.board.nTilesH / 2 : Nat) : Int) ((wg.board.nTilesV : Int) - 1)]
    congr 1
    rw [List.all_eq_false]
    obtain ⟨d, hd, hd0⟩ := wideShapeCoords_has_dy0 k
    refine ⟨(d.1 + ((wg.board.nTilesH / 2 : Nat) : Int),
      d.2 + ((wg.board.nTilesV : Int) - 1)), ?_, ?_⟩
    · apply List.mem_map_of_mem
      rw [hnp]
      exact hd
    · intro hpred
      simp only [Bool.and_eq_true, decide_eq_true_eq] at hpred
      obtain ⟨⟨hx0, hxW, hy0, hyV⟩, hempty⟩ := hpred
      have hc2 : d.2 + ((wg.board.nTilesV : Int) - 1) =
          (wg.board.nTilesV : Int) - 1 := by omega
      have hxr : (d.1 + ((wg.board.nTilesH / 2 : Nat) : Int)).toNat <
          wg.board.nTilesH := by omega
      have hyr : (d.2 + ((wg.board.nTilesV : Int) - 1)).toNat =
          wg.board.nTilesV - 1 := by omega
      have := hfull _ hxr
      rw [hyr] at hempty
      exact this hempty

/-- Witness for C5: spawning onto a board whose whole spawn row is
occupied ends the game. -/
theorem make_new_piece_spec_witness :
    spawnBlockedGame.board.WF ∧ 1 ≤ spawnBlockedGame.board.nTilesV ∧
      (∃ k, spawnBlockedGame.next_piece = Shape.ofKind k) ∧
      spawnBlockedGame.make_new_piece (Shape.ofKind TShape) = some
        ({ spawnBlockedGame with
            neednewpiece := false
            this_piece := spawnBlockedGame.this_piece.setShape NoShape
            started := false }, false) ∧
      wideBlockedGame.board.WF ∧
      wideBlockedGame.make_new_piece (Shape.ofKindWide TShape) = some
        { wideBlockedGame with
            this_piece := wideBlockedGame.next_piece.setShape NoShape
            next_piece := Shape.ofKindWide TShape
            neednewpiece := false
            cur_x := ((wideBlockedGame.board.nTilesH / 2 : Nat) : Int)
            cur_y := (wideBlockedGame.board.nTilesV : Int) - 1
            started := false } :=
  ⟨by decide, by decide, ⟨OShape, rfl⟩,
    (make_new_piece_spec.1 spawnBlockedGame (Shape.ofKind TShape) (by decide)
      (by decide)).2.2 ⟨OShape, rfl⟩ (by decide),
    by decide,
    (make_new_piece_spec.2 wideBlockedGame (Shape.ofKindWide TShape)).2.2
      (by decide) (by decide) ⟨IShape, rfl⟩ (by decide)⟩

/-- Counterexample to C5 as stated: the tetris-wide `make_new_piece`
(annotated `-> None`, so it returns no boolean at all) redraws the queued
piece even when the spawn check fails: on a blocked board the game stops
and the falling piece's kind becomes NoShape, yet `next_piece` has already
been replaced by the new draw, while the claim places the draw in the
success branch only. -/
theorem wide_make_new_piece_redraw_cex :
    (wideBlockedGame.make_new_piece (Shape.ofKindWide TShape)).map
        (fun g' => (g'.started, g'.this_piece.shape, g'.next_piece)) =
      some (false, NoShape, Shape.ofKindWide TShape) ∧
      wideBlockedGame.next_piece ≠ Shape.ofKindWide TShape := by
  constructor <;> decide

/-- C3: `removefull` on a board whose only full row is the top row: the
claim demands that the row be discarded and 1 be returned, but the `move`
list is empty and `max(i for i, _ in move)` raises ValueError. -/
theorem removefull_top_full_row_raises :
    ((List.range fullTopBoard.nTilesV).filter
        (fun y => fullTopBoard.rowNotFull y = false)) = [17] ∧
      fullTopBoard.removefull = none := by
  constructor <;> decide

/-- C2: at the reachable state `zTopGame` the placement check accepts the
Z piece at (1, 17), the spec says locking writes exactly the cells
(1, 17) and (2, 17), but `piece_dropped` zips the unfiltered x list with
the filtered y list and writes (0, 17) and (1, 17) instead. -/
theorem piece_dropped_zip_mismatch :
    zTopGame.board.check_pos zTopGame.this_piece zTopGame.cur_x
        zTopGame.cur_y = some true ∧
      zTopGame.dropWrites = [(0, 17), (1, 17)] ∧
      specLockCells zTopGame = [(1, 17), (2, 17)] ∧
      (zTopGame.piece_dropped).map (fun g' =>
          (g'.board.tileAt 0 17, g'.board.tileAt 1 17, g'.board.tileAt 2 17)) =
        some (ZShape, ZShape, NoShape) := by
  refine ⟨by decide, by decide, by decide, by decide⟩

/-- C6 (amended): `start` while paused returns false and changes nothing;
otherwise it flags the game started, resets the counters, queues the fresh
draw, runs the spawn routine against the board as it still is, and only
then clears the board, returning true.  When the spawn check against the
pre-start board succeeds, the result is a running game whose falling piece
is validly placed on the cleared board. -/
theorem start_spec (g : TetrisGame) (p1 p2 : Shape) :
    (g.paused = true → g.start p1 p2 = some (g, false)) ∧
    (g.paused = false →
      g.start p1 p2 =
        (TetrisGame.make_new_piece
            { g with
                started := true
                neednewpiece := false
                rows_completed := 0
                score := 0
                level := 1
                next_piece := p1 } p2).map
          (fun gr => ({ gr.1 with board := gr.1.board.clear }, true))) ∧
    (g.paused = false →
      g.board.check_pos p1 ((g.board.nTilesH / 2 : Nat) : Int)
          ((g.board.nTilesV : Int) - 1) = some true →
      g.start p1 p2 = some
        ({ g with
            started := true
            neednewpiece := false
            rows_completed := 0
            score := 0
            level := 1
            this_piece := p1
            next_piece := p2
            cur_x := ((g.board.nTilesH / 2 : Nat) : Int)
            cur_y := (g.board.nTilesV : Int) - 1
            board := g.board.clear }, true) ∧
      (g.board.clear).check_pos p1 ((g.board.nTilesH / 2 : Nat) : Int)
          ((g.board.nTilesV : Int) - 1) = some true) := by
  refine ⟨?_, ?_, ?_⟩
  · intro h
    simp only [TetrisGame.start, h]
    rfl
  · intro h
    simp only [TetrisGame.start]
    rw [if_neg (by simp [h])]
    cases hm : TetrisGame.make_new_piece
        { g with
            started := true
            neednewpiece := false
            rows_completed := 0
            score := 0
            level := 1
            next_piece := p1 } p2 with
    | none => simp [hm]
    | some gr => simp [hm]
  · intro h hc
    have hsucc := make_new_piece_check_true
      { g with
          started := true
          neednewpiece := false
          rows_completed := 0
          score := 0
          level := 1
          next_piece := p1 } p2 hc
    constructor
    · simp only [TetrisGame.start]
      rw [if_neg (by simp [h]), hsucc]
    · exact check_pos_clear g.board p1 _ _ hc

/-- Witness for C6: a fresh non-paused game starts, and the spawned I
piece is validly placed on the cleared board. -/
theorem start_spec_witness :
    (TetrisGame.make 10 18).paused = false ∧
      (TetrisGame.make 10 18).board.check_pos (Shape.ofKind IShape)
        (((TetrisGame.make 10 18).board.nTilesH / 2 : Nat) : Int)
        (((TetrisGame.make 10 18).board.nTilesV : Int) - 1) = some true ∧
      ((TetrisGame.make 10 18).board.clear).check_pos (Shape.ofKind IShape)
        (((TetrisGame.make 10 18).board.nTilesH / 2 : Nat) : Int)
        (((TetrisGame.make 10 18).board.nTilesV : Int) - 1) = some true :=
  ⟨rfl, by decide,
    ((start_spec (TetrisGame.make 10 18) (Shape.ofKind IShape)
        (Shape.ofKind JShape)).2.2 rfl (by decide)).2⟩

/-- Counterexample to C6 as stated: starting a non-paused game over a
board whose spawn row is still occupied returns true, yet leaves the
engine not running (`started = false`), so the engine is not Running with
a validly placed piece as the claim asserts. -/
theorem start_dirty_board_cex :
    (dirtyStartGame.start (Shape.ofKind IShape) (Shape.ofKind JShape)).map
        (fun r => (r.2, r.1.started)) = some (true, false) := by
  decide

/-- C7 (amended, tetris-wide): when the board-level row clear removes
k ≥ 1 rows, the lock-time `removefull` of tetris-wide adds k to
`rows_completed` and k² to `score` in that single event. -/
theorem wide_removefull_spec (g : GameBoard) (b' : TetrisBoard) (k : Nat)
    (h : g.board.removefull = some (b', k)) (hk : 1 ≤ k) :
    g.removefull = some
      { g with
          neednewpiece := true
          this_piece := g.this_piece.setShape NoShape
          board := b'
          rows_completed := g.rows_completed + k
          score := g.score + k * k } := by
  have hk' : k ≠ 0 := by omega
  simp only [GameBoard.removefull, h]
  simp [hk']

/-- Witness for C7's amended theorem: clearing the single full bottom row
adds 1 to the row counter and 1² to the score. -/
theorem wide_removefull_spec_witness :
    wideDemo.board.removefull = some (TetrisBoard.make 10 18, 1) ∧ 1 ≤ 1 ∧
      wideDemo.removefull = some
        { wideDemo with
            neednewpiece := true
            this_piece := wideDemo.this_piece.setShape NoShape
            board := TetrisBoard.make 10 18
            rows_completed := wideDemo.rows_completed + 1
            score := wideDemo.score + 1 * 1 } :=
  ⟨by decide, by decide,
    wide_removefull_spec wideDemo (TetrisBoard.make 10 18) 1 (by decide)
      (by decide)⟩

/-- Counterexample to C7 as stated: the tetris-tk lock handler
`piece_dropped` clears one full row, adds 1 to `rows_completed`, but
leaves `score` at 0 instead of adding 1² as the claim asserts. -/
theorem tk_lock_no_score_cex :
    (tkLockGame.piece_dropped).map
        (fun g' => (g'.rows_completed, g'.score)) = some (1, 0) := by
  decide

theorem try_pos_inv (g : TetrisGame) (piece : Shape) (x y : Int)
    (g' : TetrisGame) (r : Bool) (h : g.try_pos piece x y = some (g', r)) :
    (r = true ∧ g.board.check_pos piece x y = some true ∧
      g' = { g with this_piece := piece, cur_x := x, cur_y := y }) ∨
    (r = false ∧ g' = g) := by
  unfold TetrisGame.try_pos at h
  cases hc : g.board.check_pos piece x y with
  | none => rw [hc] at h; simp at h
  | some ok =>
    rw [hc] at h
    cases ok with
    | true =>
      simp only [if_true, Option.some.injEq, Prod.mk.injEq] at h
      exact Or.inl ⟨h.2.symm, rfl, h.1.symm⟩
    | false =>
      simp only [Bool.false_eq_true, if_false, Option.some.injEq,
        Prod.mk.injEq] at h
      exact Or.inr ⟨h.2.symm, h.1.symm⟩

theorem make_new_piece_inv (g : TetrisGame) (p : Shape) (g' : TetrisGame)
    (r : Bool) (h : g.make_new_piece p = some (g', r)) :
    (r = true ∧
      g.board.check_pos g.next_piece ((g.board.nTilesH / 2 : Nat) : Int)
        ((g.board.nTilesV : Int) - 1) = some true ∧
      g' = { g with
              neednewpiece := false
              this_piece := g.next_piece
              cur_x := ((g.board.nTilesH / 2 : Nat) : Int)
              cur_y := (g.board.nTilesV : Int) - 1
              next_piece := p }) ∨
    (r = false ∧ g'.this_piece.shape = NoShape ∧ g'.started = false) := by
  unfold TetrisGame.make_new_piece TetrisGame.try_pos at h
  dsimp only at h
  cases hc : g.board.check_pos g.next_piece ((g.board.nTilesH / 2 : Nat) : Int)
      ((g.board.nTilesV : Int) - 1) with
  | none => rw [hc] at h; simp at h
  | some ok =>
    rw [hc] at h
    cases ok with
    | true =>
      simp only [if_true, Option.some.injEq, Prod.mk.injEq] at h
      exact Or.inl ⟨h.2.symm, rfl, h.1.symm⟩
    | false =>
      simp only [Bool.false_eq_true, if_false, Option.some.injEq,
        Prod.mk.injEq] at h
      exact Or.inr ⟨h.2.symm, by rw [← h.1]; rfl, by rw [← h.1]⟩

theorem piece_dropped_blank (g g' : TetrisGame)
    (h : g.piece_dropped = some g') : g'.this_piece.shape = NoShape := by
  unfold TetrisGame.piece_dropped at h
  cases hw : writeCells g.board g.this_piece.shape g.dropWrites with
  | none => rw [hw] at h; simp at h
  | some b =>
    rw [hw] at h
    dsimp only at h
    cases hr : TetrisBoard.removefull b with
    | none => rw [hr] at h; simp at h
    | some bk =>
      rw [hr] at h
      obtain ⟨b', k⟩ := bk
      simp only [Option.some.injEq] at h
      subst h
      by_cases hk : k ≠ 0 <;> simp [hk, Shape.setShape]

/-- C10: the falling-piece validity invariant — started, no pending
respawn, and a non-empty falling piece imply the piece passes the board's
placement check at its stored position — holds in the initial state and is
preserved by every engine operation. -/
theorem piece_position_invariant :
    (∀ g g' : TetrisGame, EngineStep g g' → PieceInv g → PieceInv g') ∧
    (∀ w h : Nat, PieceInv (TetrisGame.make w h)) := by
  constructor
  · intro g g' hstep hinv
    cases hstep with
    | startStep p1 p2 g' r h =>
      unfold TetrisGame.start at h
      by_cases hp : g.paused = true
      · rw [if_pos hp] at h
        simp only [Option.some.injEq, Prod.mk.injEq] at h
        rw [← h.1]
        exact hinv
      · rw [if_neg hp] at h
        dsimp only at h
        cases hm : TetrisGame.make_new_piece
            { g with
                started := true
                neednewpiece := false
                rows_completed := 0
                score := 0
                level := 1
                next_piece := p1 } p2 with
        | none => rw [hm] at h; simp at h
        | some gr =>
          rw [hm] at h
          simp only [Option.some.injEq, Prod.mk.injEq] at h
          rw [← h.1]
          rcases make_new_piece_inv _ p2 gr.1 gr.2 (by rw [hm]) with
            ⟨_, hc, hg1⟩ | ⟨_, hsh, _⟩
          · intro _ _ _
            rw [hg1]
            exact check_pos_clear g.board p1 _ _ hc
          · intro _ _ habs
            exact absurd hsh habs
    | newPieceStep p g' r h =>
      rcases make_new_piece_inv g p g' r h with ⟨_, hc, hg⟩ | ⟨_, hsh, _⟩
      · intro _ _ _
        rw [hg]
        exact hc
      · intro _ _ habs
        exact absurd hsh habs
    | pauseStep =>
      unfold TetrisGame.pauseToggle
      by_cases hs : g.started = true
      · rw [if_neg (not_not_intro hs)]
        intro h1 h2 h3
        exact hinv h1 h2 h3
      · rw [if_pos hs]
        exact hinv
    | tryPosStep piece x y g' r h =>
      rcases try_pos_inv g piece x y g' r h with ⟨_, hc, hg⟩ | ⟨_, hg⟩
      · intro _ _ _
        rw [hg]
        exact hc
      · rw [hg]
        exact hinv
    | droppedStep g' h =>
      intro _ _ habs
      exact absurd (piece_dropped_blank g g' h) habs
    | oneDownStep g' r h =>
      unfold TetrisGame.one_row_down at h
      cases ht : g.try_pos g.this_piece g.cur_x (g.cur_y - 1) with
      | none => rw [ht] at h; simp at h
      | some g1b =>
        rw [ht] at h
        obtain ⟨g1, brr⟩ := g1b
        cases brr with
        | true =>
          simp only [Option.some.injEq, Prod.mk.injEq] at h
          rw [← h.1]
          rcases try_pos_inv g _ _ _ g1 true ht with ⟨_, hc, hg⟩ | ⟨hfalse, _⟩
          · intro _ _ _
            rw [hg]
            exact hc
          · exact absurd hfalse (by simp)
        | false =>
          dsimp only at h
          cases hd : g1.piece_dropped with
          | none => rw [hd] at h; simp at h
          | some g2 =>
            rw [hd] at h
            simp only [Option.map_some', Option.some.injEq,
              Prod.mk.injEq] at h
            rw [← h.1]
            intro _ _ habs
            exact absurd (piece_dropped_blank g1 g2 hd) habs
  · intro w hgt hs _ _
    exact absurd hs (by simp [TetrisGame.make])

/-- Witness for C10: the invariant holds in the fresh 10×18 game and is
carried across a pause toggle step. -/
theorem piece_position_invariant_witness :
    EngineStep (TetrisGame.make 10 18)
        ((TetrisGame.make 10 18).pauseToggle).1 ∧
      PieceInv ((TetrisGame.make 10 18).pauseToggle).1 :=
  ⟨EngineStep.pauseStep _,
    piece_position_invariant.1 _ _ (EngineStep.pauseStep _)
      (piece_position_invariant.2 10 18)⟩

/-- C9: the safety claim fails.  Starting a fresh game with a Z piece,
pressing Left five times (all accepted by `try_pos`) brings the piece to
(0, 17); the next soft drop locks it, and `piece_dropped` then performs a
board write at coordinates (-1, 17) — x = -1 is outside 0 ≤ x < W.  The
flat index 17*10 + (-1) = 169 silently lands in cell (9, 16), and the cell
(1, 17) the piece actually occupies is never written. -/
theorem drop_write_out_of_range :
    zLeftChain.map (fun r => (r.1.this_piece.shape, r.1.cur_x, r.1.cur_y)) =
        some (ZShape, 0, 17) ∧
      zLeftChain.map
          (fun r => (((-1 : Int), (17 : Int)) ∈ r.1.dropWrites : Bool)) =
        some true ∧
      zLeftLocked.map
          (fun g => (g.board.tileAt 9 16, g.board.tileAt 1 17)) =
        some (ZShape, NoShape) := by
  refine ⟨by decide, by decide, by decide⟩

/-- C4: in both engines, `try_pos` commits the piece and the position and
returns true exactly when the engine's placement check succeeds; when the
check fails it returns false and the whole engine state, the attempted
piece and position discarded, is returned unchanged. -/
theorem try_pos_spec :
    (∀ (g : TetrisGame) (piece : Shape) (x y : Int),
      g.try_pos piece x y =
        (g.board.check_pos piece x y).map (fun ok =>
          if ok then
            ({ g with this_piece := piece, cur_x := x, cur_y := y }, true)
          else (g, false))) ∧
    (∀ (wg : GameBoard) (piece : Shape) (x y : Int), wg.board.WF →
      wg.try_pos piece x y =
        (wg.board.check_pos_wide piece x y).map (fun ok =>
          if ok then
            ({ wg with this_piece := piece, cur_x := x, cur_y := y }, true)
          else (wg, false))) := by
  constructor
  · intro g piece x y
    unfold TetrisGame.try_pos
    cases g.board.check_pos piece x y with
    | none => simp
    | some ok => cases ok <;> simp
  · intro wg piece x y hwf
    unfold GameBoard.try_pos
    have hmap : (fun c : Int × Int => (x + c.1, y + c.2)) =
        (fun c : Int × Int => (c.1 + x, c.2 + y)) := by
      funext c
      rw [Int.add_comm x, Int.add_comm y]
    rw [hmap, wideScan_eq wg.board hwf,
      check_pos_wide_eq wg.board hwf piece x y]
    by_cases hB : (piece.coords.map (fun c => (c.1 + x, c.2 + y))).all
        (fun c => decide (0 ≤ c.1 ∧ c.1 < (wg.board.nTilesH : Int) ∧
          0 ≤ c.2 ∧ c.2 < (wg.board.nTilesV : Int)) &&
          decide (wg.board.tileAt c.1.toNat c.2.toNat = NoShape)) = true
    · rw [hB]
      rfl
    · rw [Bool.eq_false_iff.mpr hB]
      rfl

/-- Witness for C4 on the tetris-wide engine at a concrete state. -/
theorem try_pos_spec_witness :
    wideDemo.board.WF ∧
      wideDemo.try_pos (Shape.ofKind IShape) 5 5 =
        (wideDemo.board.check_pos_wide (Shape.ofKind IShape) 5 5).map
          (fun ok =>
            if ok then
              ({ wideDemo with
                  this_piece := Shape.ofKind IShape
                  cur_x := 5
                  cur_y := 5 }, true)
            else (wideDemo, false)) :=
  ⟨by decide, try_pos_spec.2 wideDemo (Shape.ofKind IShape) 5 5 (by decide)⟩
